import Mathlib

set_option maxRecDepth 100000

/-
Verification of the pypdftoimage module (a thin wrapper that builds
command lines for the Poppler pdfinfo and pdftoppm executables, runs
them, and parses their text output).

The Python source is shallowly embedded: every helper of the module is
translated into an executable Lean definition over String and List Char.
External subprocess output is passed in as an explicit parameter (the
decoded stdout text of the metadata tool), and the side effects of
spawning, waiting on and killing child processes are recorded in an
explicit event trace.  Python exceptions are modelled with Except over
an error type that distinguishes the exception kinds the module can
raise.
-/

namespace PyPdf

/-! ## Python string primitives -/

/-- Python whitespace test used by str.strip with no arguments
(ASCII whitespace; the embedding restricts itself to the ASCII range,
which is all the module ever feeds to strip). -/
def isPySpace (c : Char) : Bool :=
  c == ' ' || c == '\t' || c == '\n' || c == '\r' || c == '\x0b' || c == '\x0c'

/-- Removal of leading and of trailing characters satisfying q, exactly
the behaviour of Python str.strip: drop the longest q-prefix, then the
longest q-suffix. -/
def stripList (q : Char → Bool) (l : List Char) : List Char :=
  ((l.dropWhile q).reverse.dropWhile q).reverse

/-- Python str.strip() (whitespace on both ends). -/
def pyStrip (s : String) : String := ⟨stripList isPySpace s.toList⟩

/-- Test for the double-quote character. -/
def isQuote (c : Char) : Bool := c == '"'

/-- Python path.strip of the double-quote character, as used by
the module: strips every leading and trailing double quote. -/
def pyStripQ (s : String) : String := ⟨stripList isQuote s.toList⟩

/-- Embedding of the source helper:
def _getquotepath(path): return a double quote, then path.strip of
double quotes, then a closing double quote. -/
def _getquotepath (path : String) : String := "\"" ++ pyStripQ path ++ "\""

/-- Python str.split on a single separator character: splitting an
empty string gives one empty piece, and separators at the ends give
empty pieces, exactly like the Python method. -/
def splitOnChar (c : Char) : List Char → List (List Char)
  | [] => [[]]
  | x :: xs =>
    if x = c then [] :: splitOnChar c xs
    else match splitOnChar c xs with
         | [] => [[x]]
         | y :: ys => (x :: y) :: ys

/-- Python sep.join for a one-character separator, on character lists. -/
def joinWithChar (c : Char) : List (List Char) → List Char
  | [] => []
  | [x] => x
  | x :: y :: ys => x ++ c :: joinWithChar c (y :: ys)

/-- String-level wrapper of splitOnChar. -/
def pySplitStr (c : Char) (s : String) : List String :=
  (splitOnChar c s.toList).map (fun l => (⟨l⟩ : String))

/-- Python sep.join(list) for a string separator. -/
def joinWith (sep : String) : List String → String
  | [] => ""
  | [x] => x
  | x :: y :: ys => x ++ sep ++ joinWith sep (y :: ys)

/-- Substring containment on character lists (Python in operator on
strings). -/
def containsList (n : List Char) : List Char → Bool
  | [] => n.isEmpty
  | c :: rest => n.isPrefixOf (c :: rest) || containsList n rest

/-- Python substring test: n in s. -/
def containsSub (n s : String) : Bool := containsList n.toList s.toList

/-- Python str.zfill: left-pad with zeros to the requested width,
keeping a leading sign in front of the padding; a width not larger
than the length leaves the string unchanged. -/
def pyZfill (s : String) (width : Int) : String :=
  if width ≤ (s.toList.length : Int) then s
  else
    match s.toList with
    | [] => ⟨List.replicate (width.toNat - s.toList.length) '0'⟩
    | c :: rest =>
      if c = '+' ∨ c = '-' then
        ⟨c :: (List.replicate (width.toNat - s.toList.length) '0' ++ rest)⟩
      else ⟨List.replicate (width.toNat - s.toList.length) '0' ++ s.toList⟩

/-- Value of a list of decimal digits. -/
def digitsToNat (l : List Char) : Nat :=
  l.foldl (fun acc c => acc * 10 + (c.toNat - 48)) 0

/-- Python int(str) on the strings this module feeds it: optional
surrounding whitespace, an optional sign, then one or more decimal
digits; anything else raises ValueError, modelled as none.  (The
underscore digit grouping of Python numerals is not modelled; the
module only ever parses the Pages field of pdfinfo output.) -/
def pyInt (s : String) : Option Int :=
  let l := stripList isPySpace s.toList
  let core : List Char × Bool :=
    match l with
    | '-' :: rest => (rest, true)
    | '+' :: rest => (rest, false)
    | _ => (l, false)
  if core.1 ≠ [] ∧ core.1.all Char.isDigit = true then
    some (if core.2 then -(digitsToNat core.1 : Int) else (digitsToNat core.1 : Int))
  else none

/-- Python values stored in the pdfinfo dictionary: every field is a
string except the page count, which is converted to an integer. -/
inductive PyVal
  | s (v : String)
  | i (v : Int)
deriving DecidableEq

/-- The exception kinds the module can raise, used as the error type of
the embedding.  unableToRetrievePages is the modules own domain error
(Exception with message Unable to retrieve PDF pages); the others model
builtin Python exceptions raised by the code. -/
inductive PyErr
  | unableToRetrievePages
  | valueErr
  | nameErr (v : String)
  | keyErr (k : String)
  | typeErr
  | formatValueErr
deriving DecidableEq

/-- Lookup in an association list, first entry with the key (after
pyDict builds the list, keys are unique, matching Python dict lookup). -/
def alget {α : Type} : List (String × α) → String → Option α
  | [], _ => none
  | p :: d, k => if p.1 == k then some p.2 else alget d k

/-- Membership of a key in the association list. -/
def keyMem (d : List (String × String)) (k : String) : Bool :=
  d.any (fun p => p.1 == k)

/-- Python dict item assignment d[k] = v: overwrite the value at an
existing key in place, else append the new pair at the end. -/
def dinsert (d : List (String × String)) (kv : String × String) : List (String × String) :=
  if keyMem d kv.1 then d.map (fun p => if p.1 == kv.1 then (p.1, kv.2) else p)
  else d ++ [kv]

/-- Python dict built from a sequence of key-value pairs: inserted in
order, so a duplicate key keeps its first position and the last value. -/
def pyDict (ps : List (String × String)) : List (String × String) :=
  ps.foldl dinsert []

/-- Embedding of the per-line parsing of pdfinfo:
the pair (i.split of colon, first element, stripped;
colon-join of the remaining elements, stripped). -/
def lineKV (i : String) : String × String :=
  (pyStrip ⟨(splitOnChar ':' i.toList).headD []⟩,
   pyStrip ⟨joinWithChar ':' (splitOnChar ':' i.toList).tail⟩)

/-- Embedding of the dictionary comprehension in pdfinfo: split the
decoded output on newlines, keep the lines whose strip is nonempty, and
build a dict from the per-line key-value pairs. -/
def pdfinfoParse (data : String) : List (String × String) :=
  pyDict (((pySplitStr '\n' data).filter (fun i => !(pyStrip i).isEmpty)).map lineKV)

/-- Field name of the page count. -/
def PAGEKEY : String := "Pages"

/-- The in-place update info[PAGEKEY] = int(info[PAGEKEY]): every field
keeps its string value except the page-count field, which becomes the
integer n. -/
def promote (info : List (String × String)) (n : Int) : List (String × PyVal) :=
  info.map (fun p => (p.1, if p.1 == PAGEKEY then PyVal.i n else PyVal.s p.2))

/-- Embedding of the tail of pdfinfo, from the decoded output text to
the returned dictionary: parse, then test the truthiness of
info.get(PAGEKEY) (absent or empty string is falsy and raises the
domain error), then convert the value with int (ValueError when the
string is not an integer numeral). -/
def pdfinfoResult (data : String) : Except PyErr (List (String × PyVal)) :=
  match alget (pdfinfoParse data) PAGEKEY with
  | some v =>
    if v = "" then .error .unableToRetrievePages
    else match pyInt v with
         | some n => .ok (promote (pdfinfoParse data) n)
         | none => .error .valueErr
  | none => .error .unableToRetrievePages

/-! ## Windows path helpers (os.path on the target platform) -/

/-- Path separator test (backslash or slash, as ntpath treats both). -/
def isSep (c : Char) : Bool := c == '\\' || c == '/'

/-- Index of the first occurrence of c at position start or later
(Python str.find with a start argument), none when absent. -/
def findFrom (c : Char) (l : List Char) (start : Nat) : Option Nat :=
  ((l.drop start).findIdx? (fun x => x == c)).map (fun i => i + start)

/-- Embedding of ntpath.splitdrive: split a drive letter pair such as
a letter and colon, or a UNC share root, from the front of the path. -/
def splitdriveL (p : List Char) : List Char × List Char :=
  if 2 ≤ p.length then
    let normp := p.map (fun c => if c == '/' then '\\' else c)
    if normp.take 2 = ['\\', '\\'] ∧ (normp.drop 2).take 1 ≠ ['\\'] then
      match findFrom '\\' normp 2 with
      | none => ([], p)
      | some index =>
        match findFrom '\\' normp (index + 1) with
        | none => (p, [])
        | some index2 =>
          if index2 = index + 1 then ([], p)
          else (p.take index2, p.drop index2)
    else if (normp.drop 1).take 1 = [':'] then (p.take 2, p.drop 2)
    else ([], p)
  else ([], p)

/-- Embedding of ntpath.split: drive split, then cut at the last
separator; the head keeps the drive and is stripped of trailing
separators unless it is all separators. -/
def ntSplitL (p : List Char) : List Char × List Char :=
  let dr := splitdriveL p
  let tail := (dr.2.reverse.takeWhile (fun c => !isSep c)).reverse
  let head := dr.2.take (dr.2.length - tail.length)
  let stripped := (head.reverse.dropWhile isSep).reverse
  let head2 := if stripped = [] then head else stripped
  (dr.1 ++ head2, tail)

/-- os.path.dirname. -/
def dirnameS (p : String) : String := ⟨(ntSplitL p.toList).1⟩

/-- os.path.basename. -/
def basenameS (p : String) : String := ⟨(ntSplitL p.toList).2⟩

/-- Python str.rfind for a character: last index, or minus one. -/
def rfindC (c : Char) (l : List Char) : Int :=
  match l.reverse.findIdx? (fun x => x == c) with
  | some i => (l.length : Int) - 1 - i
  | none => -1

/-- Embedding of ntpath.splitext (genericpath with both separators and
the dot): split at the last dot after the last separator, unless every
character between the separator and that dot is a dot (a leading-dot
filename has no extension). -/
def splitextL (l : List Char) : List Char × List Char :=
  let sepIndex := max (rfindC '\\' l) (rfindC '/' l)
  let dotIndex := rfindC '.' l
  if sepIndex < dotIndex then
    let fi := (sepIndex + 1).toNat
    let di := dotIndex.toNat
    if ((l.drop fi).take (di - fi)).any (fun c => c != '.') then (l.take di, l.drop di)
    else (l, [])
  else (l, [])

/-- Embedding of the two-argument ntpath.join. -/
def ntJoinL (path b : List Char) : List Char :=
  let rd0p := splitdriveL path
  let pdp := splitdriveL b
  let rd0 := rd0p.1
  let rp0 := rd0p.2
  let pd := pdp.1
  let pp := pdp.2
  let joined :=
    if pp ≠ [] ∧ isSep (pp.headD ' ') = true then
      ((if pd ≠ [] ∨ rd0 = [] then pd else rd0), pp)
    else if pd ≠ [] ∧ pd ≠ rd0 then
      if pd.map Char.toLower ≠ rd0.map Char.toLower then (pd, pp)
      else (pd, (if rp0 ≠ [] ∧ isSep (rp0.getLastD ' ') = false
                 then rp0 ++ ['\\'] else rp0) ++ pp)
    else (rd0, (if rp0 ≠ [] ∧ isSep (rp0.getLastD ' ') = false
                then rp0 ++ ['\\'] else rp0) ++ pp)
  if joined.2 ≠ [] ∧ isSep (joined.2.headD ' ') = false
      ∧ joined.1 ≠ [] ∧ joined.1.getLastD ' ' ≠ ':' then
    joined.1 ++ '\\' :: joined.2
  else joined.1 ++ joined.2

/-- String wrapper of ntJoinL. -/
def ntJoinS (a b : String) : String := ⟨ntJoinL a.toList b.toList⟩

/-! ## Command construction and process model -/

/-- Embedding of _getcommandpath: append the exe suffix with a dot
join; when a Poppler directory is given (and truthy), join it with the
executable name and quote the result, else return the bare name. -/
def _getcommandpath (name : String) (poppler_bin_path : Option String) : String :=
  let nm := name ++ ".exe"
  match poppler_bin_path with
  | some b => if b = "" then nm else _getquotepath (ntJoinS b nm)
  | none => nm

/-- Switch-argument pairs for the password options of pdfinfo and
pdftoppm: a truthy string argument contributes the switch and the
argument, a falsy one (absent or empty) contributes nothing. -/
def pwParams (sw : String) (arg : Option String) : List String :=
  match arg with
  | some s => if s = "" then [] else [sw, s]
  | none => []

/-- Embedding of the command string built by pdfinfo: the resolved tool
path, the quoted source path, then the upw, opw and rawdates switches
for the truthy arguments (the boolean rawdates switch takes no
argument). -/
def pdfinfoCmd (source_path : String) (up op : Option String) (raw_dates : Bool)
    (poppler_bin_path : Option String) : String :=
  joinWith " " ([_getcommandpath "pdfinfo" poppler_bin_path, _getquotepath source_path]
    ++ pwParams "-upw" up ++ pwParams "-opw" op
    ++ (if raw_dates then ["-rawdates"] else []))

/-- Observable process actions of the module: spawning a child with a
command line, waiting for it (communicate), and killing it. -/
inductive PEvent
  | spawn (cmd : String)
  | waited
  | killed
deriving DecidableEq

/-- Embedding of the body of pdfinfo.  The outcome parameter is the
result of process.communicate: some data when the child finished in
time (data is its decoded combined output), none when the timeout
expired.  On expiry the code kills the process and falls through the
except clause; the local variable data was never assigned, so the
following data.decode raises an unbound-name error, modelled as
nameErr data.  On completion the output is parsed by pdfinfoResult. -/
def pdfinfoRun (outcome : Option String) (source_path : String) (up op : Option String)
    (raw_dates : Bool) (poppler_bin_path : Option String) :
    Except PyErr (List (String × PyVal)) × List PEvent :=
  let cmd := pdfinfoCmd source_path up op raw_dates poppler_bin_path
  match outcome with
  | none => (.error (.nameErr "data"), [.spawn cmd, .killed])
  | some data => (pdfinfoResult data, [.spawn cmd, .waited])

/-! ## Output prefix handling and the convert operation -/

/-- The page placeholder token. -/
def PAGETOKEN : String := "\x7bpage\x7d"

/-- The stem computed by _stripextension: basename of the path, split
off the extension, and the extension is glued back when it contains the
page token. -/
def strippedStem (path : String) : String :=
  let file := basenameS path
  let ne := splitextL file.toList
  ⟨if containsSub PAGETOKEN ⟨ne.2⟩ then ne.1 ++ ne.2 else ne.1⟩

/-- Embedding of _stripextension.  When the resulting stem does not
contain the page token, the line name += followed by a brace-enclosed
page evaluates a set display containing the unbound name page and
raises NameError, modelled as nameErr page; otherwise the function
joins the directory part with the stem. -/
def _stripextension (path : String) : Except PyErr String :=
  if containsSub PAGETOKEN (strippedStem path) then
    .ok (ntJoinS (dirnameS path) (strippedStem path))
  else .error (.nameErr "page")

/-- The EXT table of the module: image format to output extension. -/
def EXT (fmt : String) : Option String :=
  if fmt = "tiff" then some "tif"
  else if fmt = "png" then some "png"
  else if fmt = "jpeg" then some "jpg"
  else if fmt = "jpegcmyk" then some "jpg"
  else none

/-- Output extension: the table entry, or ppm for an unknown format. -/
def extOf (fmt : String) : String := (EXT fmt).getD "ppm"

/-- The allowed tiff compression schemes. -/
def TIFFCOMPRESSION : List String := ["packbits", "jpeg", "lzw", "deflate"]

/-- The tiff compression switch name. -/
def COMPSWITCH : String := "-tiffcompression"

/-- The fixed trailing switches of the render command, with the
placeholder token for the one-based page index in the range flags. -/
def ADDLSWITCHES : List String :=
  ["-aa", "yes", "-aaVector", "yes", "-singlefile", "-f",
   "\x7bfilepage\x7d", "-l", "\x7bfilepage\x7d"]

/-- The parameters of convert, one field per Python keyword argument
(output_path_prefix is named out_path here). -/
structure ConvertArgs where
  source_path : String
  out_path : String
  img_format : String
  dpi : Int
  user_password : Option String
  owner_password : Option String
  grayscale : Bool
  tiff_compression : Option String
  page_num : Bool
  page_num_offset : Option Int
  page_num_zfill : Option Int
  poppler_bin_path : Option String
deriving DecidableEq

/-- Copy of the arguments with the page_num flag replaced. -/
def setPageNum (a : ConvertArgs) (b : Bool) : ConvertArgs :=
  ⟨a.source_path, a.out_path, a.img_format, a.dpi, a.user_password,
   a.owner_password, a.grayscale, a.tiff_compression, b,
   a.page_num_offset, a.page_num_zfill, a.poppler_bin_path⟩

/-- The displayed page number before padding, for the zero-based loop
index: page = index + 1, and the offset is added only when it is truthy
(nonzero) and at least minus one, exactly the guard of the source. -/
def pageOffset (index : Nat) (off : Option Int) : Int :=
  match off with
  | some o => if ¬o = 0 ∧ -1 ≤ o then ((index : Int) + 1) + o else ((index : Int) + 1)
  | none => (index : Int) + 1

/-- Embedding of the page-label computation in the convert loop: str of
the offset page number, zero-filled when the zfill argument is truthy. -/
def pageLabel (index : Nat) (off zf : Option Int) : String :=
  match zf with
  | some z => if ¬z = 0 then pyZfill (toString (pageOffset index off)) z
              else toString (pageOffset index off)
  | none => toString (pageOffset index off)

/-- Modelled from the spec: the claimed displayed number, the one-based
index plus the offset whenever the offset is present and at least minus
one, the plain index otherwise. -/
def labelSpecOffset (i : Int) (off : Option Int) : Int :=
  match off with
  | some o => if -1 ≤ o then i + o else i
  | none => i

/-- Modelled from the spec: the claimed label formula, str of the
offset index, then zero-padded whenever a zfill is given (offset first,
padding second).  Stated over the one-based page index i. -/
def labelSpec (i : Int) (off zf : Option Int) : String :=
  match zf with
  | some z => pyZfill (toString (labelSpecOffset i off)) z
  | none => toString (labelSpecOffset i off)

/-- The substitution mapping of one loop iteration: the filepage entry
is str of the one-based index; the page entry is the page label when
the document has several pages or numbering was requested, else the
empty string. -/
def pageFill (pages : Int) (a : ConvertArgs) (index : Nat) : String × String :=
  (toString ((index : Int) + 1),
   if 1 < pages ∨ a.page_num = true then
     pageLabel index a.page_num_offset a.page_num_zfill
   else "")

/-- Scanner state of the format embedding: plain text, just after an
opening brace, just after a closing brace, or inside a field name
(accumulated in reverse). -/
inductive FmtState
  | plain
  | lbrace
  | rbrace
  | field (acc : List Char)

/-- Embedding of Python str.format for a mapping with exactly the keys
filepage and page (the only keys the module supplies): doubled braces
are literals, a brace-enclosed field is replaced by the matching value,
any other field name raises a lookup error, and an unmatched or
misplaced brace raises ValueError.  (Fields with conversion or format
specifications never occur in the strings the module formats; they are
mapped to the lookup error as well.) -/
def fmtSM (fp pg : String) : FmtState → List Char → Except PyErr (List Char)
  | .plain, [] => .ok []
  | .lbrace, [] => .error .formatValueErr
  | .rbrace, [] => .error .formatValueErr
  | .field _, [] => .error .formatValueErr
  | .plain, c :: rest =>
    if c = '\x7b' then fmtSM fp pg .lbrace rest
    else if c = '\x7d' then fmtSM fp pg .rbrace rest
    else (fmtSM fp pg .plain rest).map (fun r => c :: r)
  | .lbrace, c :: rest =>
    if c = '\x7b' then (fmtSM fp pg .plain rest).map (fun r => '\x7b' :: r)
    else if c = '\x7d' then .error (.keyErr "")
    else fmtSM fp pg (.field [c]) rest
  | .rbrace, c :: rest =>
    if c = '\x7d' then (fmtSM fp pg .plain rest).map (fun r => '\x7d' :: r)
    else .error .formatValueErr
  | .field acc, c :: rest =>
    if c = '\x7d' then
      if (⟨acc.reverse⟩ : String) = "page" then
        (fmtSM fp pg .plain rest).map (fun r => pg.toList ++ r)
      else if (⟨acc.reverse⟩ : String) = "filepage" then
        (fmtSM fp pg .plain rest).map (fun r => fp.toList ++ r)
      else .error (.keyErr ⟨acc.reverse⟩)
    else if c = '\x7b' then .error .formatValueErr
    else fmtSM fp pg (.field (c :: acc)) rest

/-- String-level format call: t.format with filepage fp and page pg. -/
def pyFormat (t fp pg : String) : Except PyErr String :=
  (fmtSM fp pg .plain t.toList).map (fun l => (⟨l⟩ : String))

/-- Total variant of pyFormat used to state trace facts (empty string
on a formatting error; in every use the format is known to succeed). -/
def fmtD (t : String) (f : String × String) : String :=
  match pyFormat t f.1 f.2 with
  | .ok c => c
  | .error _ => ""

/-- The output path recorded for one page: the formatted output
template, stripped of double quotes, a dot, and the extension. -/
def entryOf (outT ext : String) (f : String × String) : Except PyErr String :=
  (pyFormat outT f.1 f.2).map
    (fun op => (⟨stripList isQuote op.toList⟩ : String) ++ "." ++ ext)

/-- The per-page loop of convert over the list of zero-based indices:
format the command template (a failure raises before the spawn), spawn
the render process (never waited on), then format the output path and
append the recorded output file path.  The two formats of one
iteration are matched as a pair; the command format error wins, as it
is raised first in the source. -/
def pagesLoop (cmdT outT ext : String) (fills : Nat → String × String) :
    List Nat → Except PyErr (List String) × List PEvent
  | [] => (.ok [], [])
  | index :: rest =>
    match pyFormat cmdT (fills index).1 (fills index).2, entryOf outT ext (fills index) with
    | .error e, _ => (.error e, [])
    | .ok command, .error e => (.error e, [.spawn command])
    | .ok command, .ok entry =>
      ((pagesLoop cmdT outT ext fills rest).1.map (fun ls => entry :: ls),
       .spawn command :: (pagesLoop cmdT outT ext fills rest).2)

/-- The argument list of the render command, in the order the source
builds it: tool path, resolution, password switches, the format switch
for a known format, the tiff compression switch (the given scheme when
valid, else none) only for tiff, the grayscale switch, the fixed
switches, then the quoted source and output paths. -/
def renderParams (a : ConvertArgs) (sp outp : String) : List String :=
  [_getcommandpath "pdftoppm" a.poppler_bin_path, "-r", toString a.dpi]
  ++ pwParams "-upw" a.user_password ++ pwParams "-opw" a.owner_password
  ++ (match EXT a.img_format with
      | some _ => ["-" ++ a.img_format]
      | none => [])
  ++ (if a.img_format = "tiff" then
        match a.tiff_compression with
        | some tc => if TIFFCOMPRESSION.contains tc then [COMPSWITCH, tc]
                     else [COMPSWITCH, "none"]
        | none => [COMPSWITCH, "none"]
      else [])
  ++ (if a.grayscale then ["-gray"] else [])
  ++ ADDLSWITCHES ++ [sp, outp]

/-- The events of the pdfinfo call made by convert: its spawn with the
command built from the already once-quoted source path, and the wait of
communicate (convert passes no timeout, so the wait always completes). -/
def infoEvents (t : String) (a : ConvertArgs) : List PEvent :=
  [.spawn (pdfinfoCmd (_getquotepath a.source_path) a.user_password a.owner_password
    false a.poppler_bin_path), .waited]

/-- The joined render command template of a convert call, with the
stripped output prefix st: space-join of the parameter list built from
the quoted source path and the quoted output template. -/
def convCmdT (a : ConvertArgs) (st : String) : String :=
  joinWith " " (renderParams a (_getquotepath a.source_path) (_getquotepath st))

/-- The per-page loop of a convert call, over all zero-based indices
below the page count. -/
def convLoop (a : ConvertArgs) (pages : Int) (st : String) :
    Except PyErr (List String) × List PEvent :=
  pagesLoop (convCmdT a st) (_getquotepath st) (extOf a.img_format)
    (pageFill pages a) (List.range pages.toNat)

/-- Stage of convert after the page count is known: strip the output
prefix (the stem without the page token raises there), then run the
per-page loop, appending its events after the pdfinfo events. -/
def convertStage3 (t : String) (a : ConvertArgs) (pages : Int) :
    Except PyErr (List String) × List PEvent :=
  match _stripextension a.out_path with
  | .error e => (.error e, infoEvents t a)
  | .ok st => ((convLoop a pages st).1, infoEvents t a ++ (convLoop a pages st).2)

/-- Stage of convert after a successful pdfinfo: read the page count
out of the returned mapping.  The two lower arms are unreachable (a
successful pdfinfo always stores an integer under the page-count
field); they model the KeyError and the TypeError of range on a string
that Python would raise there. -/
def convertStage2 (t : String) (a : ConvertArgs) (info : List (String × PyVal)) :
    Except PyErr (List String) × List PEvent :=
  match alget info PAGEKEY with
  | some (PyVal.i pages) => convertStage3 t a pages
  | some (PyVal.s _) => (.error .typeErr, infoEvents t a)
  | none => (.error (.keyErr PAGEKEY), infoEvents t a)

/-- Embedding of convert.  The parameter t is the decoded stdout text
of the metadata tool (convert calls pdfinfo with no timeout, so the
communicate outcome is always some t, and the pdfinfo call contributes
its spawn and wait events).  Returns the result (the list of recorded
output paths, or the first exception) together with the event trace:
the pdfinfo spawn and wait, then one spawn per page with no wait. -/
def convert (t : String) (a : ConvertArgs) : Except PyErr (List String) × List PEvent :=
  match pdfinfoResult t with
  | .error e => (.error e, infoEvents t a)
  | .ok info => convertStage2 t a info

/-- The page count stored in a successful pdfinfo mapping. -/
def pagesOf (info : List (String × PyVal)) : Option Int :=
  match alget info PAGEKEY with
  | some (PyVal.i n) => some n
  | _ => none

/-- The page count a metadata output text leads to: the integer stored
under the page-count field of a successful pdfinfo result. -/
def infoPages (data : String) : Option Int :=
  match pdfinfoResult data with
  | .ok info => pagesOf info
  | .error _ => none

/-- Option view of a fallible string result. -/
def eOpt (x : Except PyErr String) : Option String :=
  match x with
  | .ok s => some s
  | .error _ => none

/-- Spawn event test. -/
def isSpawnEv : PEvent → Bool
  | .spawn _ => true
  | _ => false

/-- Wait event test. -/
def isWaitEv : PEvent → Bool
  | .waited => true
  | _ => false

/-- Scoped acquisition check on a trace: with pending false, every
spawn must be followed by a waited event before the next spawn.  The
boolean argument records whether a spawn is pending a wait. -/
def seqDrained : Bool → List PEvent → Bool
  | _, [] => true
  | true, PEvent.waited :: rest => seqDrained false rest
  | true, PEvent.spawn _ :: _ => false
  | true, PEvent.killed :: rest => seqDrained true rest
  | false, PEvent.spawn _ :: rest => seqDrained true rest
  | false, PEvent.waited :: rest => seqDrained false rest
  | false, PEvent.killed :: rest => seqDrained false rest

/-- Modelled from the spec: the claimed per-line parse, split on the
FIRST colon only, left part stripped as the key, the full remainder
stripped as the value. -/
def firstColonKV (i : String) : String × String :=
  (pyStrip ⟨i.toList.takeWhile (fun c => !(c == ':'))⟩,
   pyStrip ⟨(i.toList.dropWhile (fun c => !(c == ':'))).drop 1⟩)

/-- Concrete arguments used in witnesses: default options, source s and
output prefix o followed by the page token. -/
def argsA : ConvertArgs :=
  ⟨"s", "o\x7bpage\x7d", "tiff", 300, none, none, false, none, false, none, none, none⟩

/-- Concrete arguments with a page-number offset of minus one. -/
def argsOffset : ConvertArgs :=
  ⟨"s", "o\x7bpage\x7d", "tiff", 300, none, none, false, none, false, some (-1), none, none⟩

/-- Concrete arguments with a zero-fill width of three. -/
def argsZfill : ConvertArgs :=
  ⟨"s", "o\x7bpage\x7d", "tiff", 300, none, none, false, none, false, none, some 3, none⟩

/-! ## List and string helper lemmas -/

theorem toList_append (s t : String) : (s ++ t).toList = s.toList ++ t.toList := by
  cases s; cases t; rfl

theorem mk_toList (s : String) : String.mk s.toList = s := by
  cases s
  rfl

theorem head?_dropWhile_false (q : Char → Bool) (l : List Char) (x : Char)
    (h : (l.dropWhile q).head? = some x) : q x = false := by
  have hh := List.head?_dropWhile_not q l
  rw [h] at hh
  exact hh

theorem dropWhile_eq_self_of_head? (q : Char → Bool) (l : List Char)
    (h : ∀ x, l.head? = some x → q x = false) : l.dropWhile q = l := by
  cases l with
  | nil => rfl
  | cons a t =>
    rw [List.dropWhile_cons, h a rfl]
    simp

theorem dropWhile_idem (q : Char → Bool) (l : List Char) :
    (l.dropWhile q).dropWhile q = l.dropWhile q := by
  apply dropWhile_eq_self_of_head?
  intro x hx
  exact head?_dropWhile_false q l x hx

theorem getLast?_of_suffix {l m : List Char} (h : l <:+ m) (hne : l ≠ []) :
    l.getLast? = m.getLast? := by
  obtain ⟨t, rfl⟩ := h
  rw [List.getLast?_append]
  cases hl : l.getLast? with
  | none => exact absurd (List.getLast?_eq_none_iff.mp hl) hne
  | some a => rfl

theorem stripList_head? (q : Char → Bool) (l : List Char) (x : Char)
    (h : (stripList q l).head? = some x) : q x = false := by
  unfold stripList at h
  set A := l.dropWhile q with hA
  set B := A.reverse.dropWhile q with hB
  rw [List.head?_reverse] at h
  have hBne : B ≠ [] := by
    intro hnil
    rw [hnil] at h
    simp at h
  have hsf : B <:+ A.reverse := List.dropWhile_suffix q
  have hlast : B.getLast? = A.reverse.getLast? := getLast?_of_suffix hsf hBne
  rw [hlast, List.getLast?_reverse] at h
  exact head?_dropWhile_false q l x h

theorem stripList_getLast? (q : Char → Bool) (l : List Char) (x : Char)
    (h : (stripList q l).getLast? = some x) : q x = false := by
  unfold stripList at h
  rw [List.getLast?_reverse] at h
  exact head?_dropWhile_false q (l.dropWhile q).reverse x h

theorem stripList_eq_self (q : Char → Bool) (l : List Char)
    (hh : ∀ x, l.head? = some x → q x = false)
    (hl : ∀ x, l.getLast? = some x → q x = false) :
    stripList q l = l := by
  unfold stripList
  rw [dropWhile_eq_self_of_head? q l hh]
  rw [dropWhile_eq_self_of_head?]
  · exact List.reverse_reverse l
  · intro x hx
    rw [List.head?_reverse] at hx
    exact hl x hx

theorem stripList_idem (q : Char → Bool) (l : List Char) :
    stripList q (stripList q l) = stripList q l :=
  stripList_eq_self q _ (stripList_head? q l) (stripList_getLast? q l)

theorem stripList_cons_of (q : Char → Bool) (c : Char) (l : List Char)
    (h : q c = true) : stripList q (c :: l) = stripList q l := by
  unfold stripList
  rw [List.dropWhile_cons, h]
  simp

theorem stripList_concat_of (q : Char → Bool) (c : Char) (l : List Char)
    (h : q c = true) : stripList q (l ++ [c]) = stripList q l := by
  unfold stripList
  rw [List.dropWhile_append]
  by_cases he : (l.dropWhile q).isEmpty = true
  · rw [if_pos he]
    have h1 : List.dropWhile q [c] = ([] : List Char) := by
      rw [show [c] = c :: ([] : List Char) from rfl, List.dropWhile_cons, h]
      simp
    rw [h1]
    have h2 : l.dropWhile q = ([] : List Char) := by
      cases hd : l.dropWhile q with
      | nil => rfl
      | cons a t => rw [hd] at he; simp [List.isEmpty] at he
    rw [h2]
  · rw [if_neg he]
    rw [List.reverse_append]
    show ((([c].reverse) ++ (l.dropWhile q).reverse).dropWhile q).reverse = _
    have : ([c].reverse : List Char) = [c] := rfl
    rw [this]
    rw [show ([c] ++ (l.dropWhile q).reverse : List Char)
          = c :: (l.dropWhile q).reverse from rfl]
    rw [List.dropWhile_cons, h]
    simp

theorem stripQ_quote_wrap (s : String) :
    pyStripQ ("\"" ++ s ++ "\"") = ⟨stripList isQuote s.toList⟩ := by
  unfold pyStripQ
  rw [toList_append, toList_append]
  have h1 : ("\"" : String).toList = ['"'] := rfl
  rw [h1]
  rw [show (['"'] ++ s.toList ++ ['"'] : List Char)
        = '"' :: (s.toList ++ ['"']) from by simp]
  rw [stripList_cons_of isQuote '"' _ rfl, stripList_concat_of isQuote '"' _ rfl]

/-- C7 helper: stripping the result of a quote call recovers the
stripped interior. -/
theorem stripQ_getquotepath (p : String) :
    pyStripQ (_getquotepath p) = pyStripQ p := by
  unfold _getquotepath
  rw [stripQ_quote_wrap]
  show String.mk (stripList isQuote (stripList isQuote p.toList)) = pyStripQ p
  rw [stripList_idem]
  rfl

/-- C7: the quoting helper wraps the input in exactly one pair of double
quotes after stripping any pre-existing edge double quotes; it is
idempotent, and for a path with no edge double quotes, quoting and then
stripping the double quotes recovers the original path. -/
theorem quotepath_spec :
    (∀ p : String, _getquotepath p = "\"" ++ pyStripQ p ++ "\"")
    ∧ (∀ p : String, _getquotepath (_getquotepath p) = _getquotepath p)
    ∧ (∀ p : String, p.toList.head? ≠ some '"' → p.toList.getLast? ≠ some '"' →
        pyStripQ (_getquotepath p) = p) := by
  refine ⟨fun p => rfl, ?_, ?_⟩
  · intro p
    show "\"" ++ pyStripQ (_getquotepath p) ++ "\"" = _
    rw [stripQ_getquotepath]
    rfl
  · intro p h1 h2
    rw [stripQ_getquotepath]
    unfold pyStripQ
    rw [stripList_eq_self]
    · exact mk_toList p
    · intro x hx
      have : x ≠ '"' := by
        intro he
        rw [he] at hx
        exact h1 hx
      simp [isQuote, this]
    · intro x hx
      have : x ≠ '"' := by
        intro he
        rw [he] at hx
        exact h2 hx
      simp [isQuote, this]

/-- C7 witness: a concrete path with no edge quotes round-trips, and the
hypotheses of the round-trip part hold for it. -/
theorem quotepath_spec_witness : pyStripQ (_getquotepath "C:out dir") = "C:out dir" :=
  quotepath_spec.2.2 "C:out dir" (by decide) (by decide)

/-! ## Splitting and joining lemmas -/

theorem splitOnChar_ne_nil (c : Char) (l : List Char) : splitOnChar c l ≠ [] := by
  induction l with
  | nil => simp [splitOnChar]
  | cons x xs ih =>
    unfold splitOnChar
    by_cases h : x = c
    · simp [h]
    · cases hs : splitOnChar c xs with
      | nil => simp [h, hs]
      | cons y ys => simp [h, hs]

theorem joinWithChar_splitOnChar (c : Char) (l : List Char) :
    joinWithChar c (splitOnChar c l) = l := by
  induction l with
  | nil => rfl
  | cons x xs ih =>
    unfold splitOnChar
    by_cases h : x = c
    · rw [if_pos h]
      cases hs : splitOnChar c xs with
      | nil => exact absurd hs (splitOnChar_ne_nil c xs)
      | cons y ys =>
        rw [hs] at ih
        show joinWithChar c ([] :: y :: ys) = x :: xs
        unfold joinWithChar
        rw [ih, h]
        rfl
    · rw [if_neg h]
      cases hs : splitOnChar c xs with
      | nil => exact absurd hs (splitOnChar_ne_nil c xs)
      | cons y ys =>
        rw [hs] at ih
        cases ys with
        | nil =>
          show joinWithChar c [x :: y] = x :: xs
          unfold joinWithChar at ih ⊢
          rw [ih]
        | cons z zs =>
          show joinWithChar c ((x :: y) :: z :: zs) = x :: xs
          unfold joinWithChar at ih ⊢
          rw [← ih]
          rfl

theorem splitOnChar_headD (c : Char) (l : List Char) :
    (splitOnChar c l).headD [] = l.takeWhile (fun x => !(x == c)) := by
  induction l with
  | nil => rfl
  | cons x xs ih =>
    unfold splitOnChar
    by_cases h : x = c
    · rw [if_pos h]
      have hb : (!(x == c)) = false := by simp [h]
      simp [List.takeWhile_cons, hb]
    · rw [if_neg h]
      cases hs : splitOnChar c xs with
      | nil => exact absurd hs (splitOnChar_ne_nil c xs)
      | cons y ys =>
        rw [hs] at ih
        have hb : (!(x == c)) = true := by simp [h]
        simp only [List.takeWhile_cons, hb, List.headD]
        simp only [List.headD] at ih
        simp [ih]

theorem joinWithChar_splitOnChar_tail (c : Char) (l : List Char) :
    joinWithChar c (splitOnChar c l).tail = (l.dropWhile (fun x => !(x == c))).drop 1 := by
  induction l with
  | nil => rfl
  | cons x xs ih =>
    unfold splitOnChar
    by_cases h : x = c
    · rw [if_pos h]
      have hb : (!(x == c)) = false := by simp [h]
      rw [List.tail_cons]
      rw [joinWithChar_splitOnChar]
      simp [List.dropWhile_cons, hb]
    · rw [if_neg h]
      cases hs : splitOnChar c xs with
      | nil => exact absurd hs (splitOnChar_ne_nil c xs)
      | cons y ys =>
        rw [hs] at ih
        have hb : (!(x == c)) = true := by simp [h]
        rw [List.tail_cons] at ih ⊢
        simp only [List.dropWhile_cons, hb, if_true]
        exact ih

/-! ## Dictionary lemmas -/

theorem alget_map_overwrite (d : List (String × String)) (k v : String)
    (h : keyMem d k = true) :
    alget (d.map (fun p => if p.1 == k then (p.1, v) else p)) k = some v := by
  induction d with
  | nil => simp [keyMem] at h
  | cons a d' ih =>
    by_cases hk : a.1 = k
    · have hb : (a.1 == k) = true := by simp [hk]
      simp [alget, hb]
    · have hb : (a.1 == k) = false := by simp [hk]
      have h' : keyMem d' k = true := by
        unfold keyMem at h
        rw [List.any_cons, hb] at h
        simpa [keyMem] using h
      simp only [List.map_cons, alget, hb, if_neg, Bool.false_eq_true,
        not_false_iff, if_false]
      exact ih h'

theorem alget_append_new (d : List (String × String)) (k v : String)
    (h : keyMem d k = false) :
    alget (d ++ [(k, v)]) k = some v := by
  induction d with
  | nil => simp [alget]
  | cons a d' ih =>
    have hany : ((a.1 == k) || d'.any (fun p => p.1 == k)) = false := by
      unfold keyMem at h
      rw [List.any_cons] at h
      exact h
    have hb : (a.1 == k) = false := by
      cases hx : (a.1 == k) with
      | false => rfl
      | true => rw [hx] at hany; simp at hany
    have h' : keyMem d' k = false := by
      unfold keyMem
      rw [hb] at hany
      simpa using hany
    simp only [List.cons_append, alget, hb, Bool.false_eq_true, not_false_iff,
      if_false]
    exact ih h'

theorem alget_dinsert_self (d : List (String × String)) (k v : String) :
    alget (dinsert d (k, v)) k = some v := by
  unfold dinsert
  by_cases hm : keyMem d k
  · rw [if_pos hm]
    exact alget_map_overwrite d k v hm
  · rw [if_neg hm]
    exact alget_append_new d k v (by simpa using hm)

theorem alget_promote (info : List (String × String)) (n : Int) (v : String)
    (h : alget info PAGEKEY = some v) :
    alget (promote info n) PAGEKEY = some (PyVal.i n) := by
  induction info with
  | nil => simp [alget] at h
  | cons a d ih =>
    by_cases hk : a.1 = PAGEKEY
    · have hb : (a.1 == PAGEKEY) = true := by simp [hk]
      simp [alget, promote, hb]
    · have hb : (a.1 == PAGEKEY) = false := by simp [hk]
      simp only [alget, hb, Bool.false_eq_true, not_false_iff, if_false] at h
      simp only [promote, List.map_cons, alget, hb, Bool.false_eq_true,
        not_false_iff, if_false]
      exact ih h

/-! ## pdfinfo result lemmas -/

/-- Integer view of the raw string stored under a key: the value the
int conversion of the module produces for it. -/
def intView (o : Option String) : Option PyVal :=
  o.bind (fun v => (pyInt v).map PyVal.i)

theorem pdfinfoResult_eq_none (data : String)
    (hv : alget (pdfinfoParse data) PAGEKEY = none) :
    pdfinfoResult data = .error .unableToRetrievePages := by
  unfold pdfinfoResult
  rw [hv]

theorem pdfinfoResult_eq_some (data v : String)
    (hv : alget (pdfinfoParse data) PAGEKEY = some v) :
    pdfinfoResult data =
      if v = "" then .error .unableToRetrievePages
      else
        match pyInt v with
        | some n => .ok (promote (pdfinfoParse data) n)
        | none => .error .valueErr := by
  unfold pdfinfoResult
  rw [hv]

theorem pdfinfoResult_ok_pages (data : String) (info : List (String × PyVal))
    (h : pdfinfoResult data = .ok info) :
    alget info PAGEKEY = intView (alget (pdfinfoParse data) PAGEKEY) := by
  cases hv : alget (pdfinfoParse data) PAGEKEY with
  | none => rw [pdfinfoResult_eq_none data hv] at h; exact absurd h (by simp)
  | some v =>
    rw [pdfinfoResult_eq_some data v hv] at h
    by_cases he : v = ""
    · rw [if_pos he] at h; exact absurd h (by simp)
    · rw [if_neg he] at h
      cases hn : pyInt v with
      | none => rw [hn] at h; exact absurd h (by simp)
      | some n =>
        rw [hn] at h
        have hi : info = promote (pdfinfoParse data) n := by
          injection h with h'
          exact h'.symm
        rw [hi]
        have hiv : intView (some v) = some (PyVal.i n) := by
          simp [intView, hn]
        rw [hiv]
        exact alget_promote _ n v hv

/-! ## Claim C2: the line parser of pdfinfo -/

/-- C2: the pdfinfo parser splits the decoded output on newlines,
discards blank lines, and splits every kept line on the first colon,
key left stripped and the rejoined remainder stripped as the value, so
a value keeps its interior colons; on a duplicate key the last value
wins. -/
theorem pdfinfo_parsing_spec :
    (∀ line : String, lineKV line = firstColonKV line)
    ∧ alget (pdfinfoParse "Title: Report: Final") "Title" = some "Report: Final"
    ∧ pdfinfoParse "A: 1\n\nB: 2\n" = [("A", "1"), ("B", "2")]
    ∧ ∀ (ps : List (String × String)) (k v : String),
        alget (pyDict (ps ++ [(k, v)])) k = some v := by
  refine ⟨?_, rfl, rfl, ?_⟩
  · intro line
    unfold lineKV firstColonKV
    have h1 := splitOnChar_headD ':' line.toList
    have h2 := joinWithChar_splitOnChar_tail ':' line.toList
    rw [h1, h2]
  · intro ps k v
    unfold pyDict
    rw [List.foldl_append]
    show alget (dinsert (List.foldl dinsert [] ps) (k, v)) k = some v
    exact alget_dinsert_self _ k v

/-! ## Claim C3: page-count extraction -/

/-- C3 counterexample: a present and truthy page-count value that is
not an integer numeral makes pdfinfo raise ValueError from the int
conversion; no mapping is returned, and the domain error is not the
raised error, contradicting the claim that every present truthy value
yields a mapping with its integer conversion. -/
theorem pages_truthy_nonint_counterexample :
    alget (pdfinfoParse "Pages: x") PAGEKEY = some "x" ∧ ("x" : String) ≠ ""
    ∧ pdfinfoResult "Pages: x" = .error .valueErr
    ∧ PyErr.valueErr ≠ PyErr.unableToRetrievePages :=
  ⟨rfl, by decide, rfl, by decide⟩

/-- C3 amended: when the page-count field is absent or empty the call
fails with the domain error; when it is present with an integer-numeral
value the call returns the parsed mapping with the field converted to
that integer; when it is present, truthy and not an integer numeral the
call raises ValueError instead of returning a mapping. -/
theorem pdfinfo_pages_extraction (data : String) :
    ((alget (pdfinfoParse data) PAGEKEY = none
        ∨ alget (pdfinfoParse data) PAGEKEY = some "") →
      pdfinfoResult data = .error .unableToRetrievePages)
    ∧ (∀ v n, alget (pdfinfoParse data) PAGEKEY = some v → pyInt v = some n →
        pdfinfoResult data = .ok (promote (pdfinfoParse data) n))
    ∧ (∀ v, alget (pdfinfoParse data) PAGEKEY = some v → v ≠ "" → pyInt v = none →
        pdfinfoResult data = .error .valueErr) := by
  refine ⟨?_, ?_, ?_⟩
  · intro h
    rcases h with h | h
    · exact pdfinfoResult_eq_none data h
    · rw [pdfinfoResult_eq_some data "" h]
      simp
  · intro v n hv hn
    rw [pdfinfoResult_eq_some data v hv]
    have he : ¬v = "" := by
      intro hc
      rw [hc] at hn
      have h0 : pyInt "" = none := rfl
      rw [h0] at hn
      cases hn
    rw [if_neg he, hn]
  · intro v hv he hn
    rw [pdfinfoResult_eq_some data v hv, if_neg he, hn]

/-- C3 witness: the output line Pages: 7 leads to a returned mapping
with the integer seven under the page-count field. -/
theorem pdfinfo_pages_extraction_witness :
    pdfinfoResult "Pages: 7" = .ok (promote (pdfinfoParse "Pages: 7") 7) :=
  (pdfinfo_pages_extraction "Pages: 7").2.1 "7" 7 rfl rfl

/-! ## Claim C4: timeout behaviour -/

/-- C4 counterexample: on a timeout the call does not raise the domain
error the claim names; it raises the unbound-name error for the local
variable data (the except clause killed the process without assigning
the output), a different kind of exception. -/
theorem pdfinfo_timeout_counterexample :
    pdfinfoRun none "s.pdf" none none false none
      = (.error (.nameErr "data"), [.spawn "pdfinfo.exe \"s.pdf\"", .killed])
    ∧ PyErr.nameErr "data" ≠ PyErr.unableToRetrievePages :=
  ⟨rfl, by decide⟩

/-- C4 amended: for every call whose timeout expires, the process is
killed and the call then raises the unbound-name error for the output
variable; parsing never runs and the page-count domain error is not
raised. -/
theorem pdfinfo_timeout_kills_then_name_error (sp : String) (up op : Option String)
    (rd : Bool) (bin : Option String) :
    pdfinfoRun none sp up op rd bin
      = (.error (.nameErr "data"), [.spawn (pdfinfoCmd sp up op rd bin), .killed]) := rfl

/-! ## Claim C8: the page-count invariant -/

/-- C8 counterexample: a metadata output with a zero page count is
accepted: pdfinfo returns a mapping whose page-count field holds the
integer zero, which is not positive, contradicting the claimed
invariant. -/
theorem pages_positive_counterexample :
    pdfinfoResult "Pages: 0" = .ok [("Pages", PyVal.i 0)] ∧ ¬((0 : Int) > 0) :=
  ⟨rfl, by decide⟩

/-- C8 amended: every mapping returned by a successful pdfinfo call
holds, under the page-count field, exactly the integer conversion of
the parsed string value of that field; the integer may be zero or
negative, positivity is not enforced (the call fails only when the
field is absent, empty, or not an integer numeral). -/
theorem pdfinfo_pages_integer (data : String) (info : List (String × PyVal))
    (hok : pdfinfoResult data = .ok info) :
    alget info PAGEKEY = intView (alget (pdfinfoParse data) PAGEKEY) :=
  pdfinfoResult_ok_pages data info hok

/-- C8 witness: the zero-page output is a successful call on which the
amended statement evaluates. -/
theorem pdfinfo_pages_integer_witness :
    alget [("Pages", PyVal.i 0)] PAGEKEY = intView (alget (pdfinfoParse "Pages: 0") PAGEKEY) :=
  pdfinfo_pages_integer "Pages: 0" [("Pages", PyVal.i 0)] rfl

/-! ## Unfolding lemmas for convert -/

theorem convert_info_error (t : String) (a : ConvertArgs) (e : PyErr)
    (hr : pdfinfoResult t = .error e) :
    convert t a = (.error e, infoEvents t a) := by
  unfold convert
  rw [hr]

theorem convert_info_ok (t : String) (a : ConvertArgs) (info : List (String × PyVal))
    (hr : pdfinfoResult t = .ok info) :
    convert t a = convertStage2 t a info := by
  unfold convert
  rw [hr]

theorem convertStage2_int (t : String) (a : ConvertArgs) (info : List (String × PyVal))
    (pages : Int) (hp : alget info PAGEKEY = some (PyVal.i pages)) :
    convertStage2 t a info = convertStage3 t a pages := by
  unfold convertStage2
  rw [hp]

theorem convertStage2_str (t : String) (a : ConvertArgs) (info : List (String × PyVal))
    (s0 : String) (hp : alget info PAGEKEY = some (PyVal.s s0)) :
    convertStage2 t a info = (.error .typeErr, infoEvents t a) := by
  unfold convertStage2
  rw [hp]

theorem convertStage2_none (t : String) (a : ConvertArgs) (info : List (String × PyVal))
    (hp : alget info PAGEKEY = none) :
    convertStage2 t a info = (.error (.keyErr PAGEKEY), infoEvents t a) := by
  unfold convertStage2
  rw [hp]

theorem convertStage3_strip_error (t : String) (a : ConvertArgs) (pages : Int) (e : PyErr)
    (hst : _stripextension a.out_path = .error e) :
    convertStage3 t a pages = (.error e, infoEvents t a) := by
  unfold convertStage3
  rw [hst]

theorem convertStage3_strip_ok (t : String) (a : ConvertArgs) (pages : Int) (st : String)
    (hst : _stripextension a.out_path = .ok st) :
    convertStage3 t a pages
      = ((convLoop a pages st).1, infoEvents t a ++ (convLoop a pages st).2) := by
  unfold convertStage3
  rw [hst]

theorem convert_ok_eq (t : String) (a : ConvertArgs) (info : List (String × PyVal))
    (pages : Int) (st : String)
    (hr : pdfinfoResult t = .ok info)
    (hp : alget info PAGEKEY = some (PyVal.i pages))
    (hst : _stripextension a.out_path = .ok st) :
    convert t a = ((convLoop a pages st).1, infoEvents t a ++ (convLoop a pages st).2) := by
  rw [convert_info_ok t a info hr, convertStage2_int t a info pages hp,
    convertStage3_strip_ok t a pages st hst]

/-! ## infoPages lemmas -/

theorem pagesOf_some (info : List (String × PyVal)) (n : Int)
    (h : pagesOf info = some n) : alget info PAGEKEY = some (PyVal.i n) := by
  unfold pagesOf at h
  cases hv : alget info PAGEKEY with
  | none => rw [hv] at h; exact Option.noConfusion h
  | some pv =>
    rw [hv] at h
    cases pv with
    | s s0 => exact Option.noConfusion h
    | i m =>
      have hm : m = n := Option.some.inj h
      rw [hm]

theorem infoPages_some (t : String) (n : Int) (h : infoPages t = some n) :
    ∃ info, pdfinfoResult t = .ok info ∧ alget info PAGEKEY = some (PyVal.i n) := by
  unfold infoPages at h
  cases hr : pdfinfoResult t with
  | error e => rw [hr] at h; exact Option.noConfusion h
  | ok info =>
    rw [hr] at h
    exact ⟨info, rfl, pagesOf_some info n h⟩

/-! ## pagesLoop lemmas -/

theorem pagesLoop_cons_fmt_error (cmdT outT ext : String) (fills : Nat → String × String)
    (index : Nat) (rest : List Nat) (e : PyErr)
    (hf : pyFormat cmdT (fills index).1 (fills index).2 = .error e) :
    pagesLoop cmdT outT ext fills (index :: rest) = (.error e, []) := by
  unfold pagesLoop
  rw [hf]

theorem pagesLoop_cons_entry_error (cmdT outT ext : String) (fills : Nat → String × String)
    (index : Nat) (rest : List Nat) (command : String) (e : PyErr)
    (hf : pyFormat cmdT (fills index).1 (fills index).2 = .ok command)
    (he : entryOf outT ext (fills index) = .error e) :
    pagesLoop cmdT outT ext fills (index :: rest) = (.error e, [.spawn command]) := by
  unfold pagesLoop
  rw [hf, he]

theorem pagesLoop_cons_ok (cmdT outT ext : String) (fills : Nat → String × String)
    (index : Nat) (rest : List Nat) (command entry : String)
    (hf : pyFormat cmdT (fills index).1 (fills index).2 = .ok command)
    (he : entryOf outT ext (fills index) = .ok entry) :
    pagesLoop cmdT outT ext fills (index :: rest)
      = ((pagesLoop cmdT outT ext fills rest).1.map (fun ls => entry :: ls),
         .spawn command :: (pagesLoop cmdT outT ext fills rest).2) := by
  simp only [pagesLoop]
  rw [hf, he]

theorem pagesLoop_ok_spec (cmdT outT ext : String) (fills : Nat → String × String) :
    ∀ (idxs : List Nat) (l : List String),
      (pagesLoop cmdT outT ext fills idxs).1 = .ok l →
      l.length = idxs.length ∧ ∀ k i, idxs.get? k = some i →
        l.get? k = eOpt (entryOf outT ext (fills i)) := by
  intro idxs
  induction idxs with
  | nil =>
    intro l h
    have h' : Except.ok ([] : List String) = Except.ok l := h
    have h0 : ([] : List String) = l := Except.ok.inj h'
    subst h0
    refine ⟨rfl, ?_⟩
    intro k i hk
    simp [List.get?] at hk
  | cons index rest ih =>
    intro l h
    cases hf : pyFormat cmdT (fills index).1 (fills index).2 with
    | error e =>
      rw [pagesLoop_cons_fmt_error cmdT outT ext fills index rest e hf] at h
      exact Except.noConfusion h
    | ok command =>
      cases he : entryOf outT ext (fills index) with
      | error e =>
        rw [pagesLoop_cons_entry_error cmdT outT ext fills index rest command e hf he] at h
        exact Except.noConfusion h
      | ok entry =>
        rw [pagesLoop_cons_ok cmdT outT ext fills index rest command entry hf he] at h
        have h' : (pagesLoop cmdT outT ext fills rest).1.map (fun ls => entry :: ls)
            = Except.ok l := h
        cases hrec : (pagesLoop cmdT outT ext fills rest).1 with
        | error e =>
          rw [hrec] at h'
          exact Except.noConfusion h'
        | ok l' =>
          rw [hrec] at h'
          have h'' : Except.ok (entry :: l') = Except.ok l := h'
          have h3 : entry :: l' = l := Except.ok.inj h''
          subst h3
          obtain ⟨hlen, hget⟩ := ih l' hrec
          refine ⟨by simp [hlen], ?_⟩
          intro k i hk
          cases k with
          | zero =>
            have hi : index = i := Option.some.inj hk
            subst hi
            show some entry = eOpt (entryOf outT ext (fills index))
            rw [he]
            rfl
          | succ k' =>
            rw [List.get?_cons_succ] at hk ⊢
            exact hget k' i hk

theorem pagesLoop_events_spec (cmdT outT ext : String) (fills : Nat → String × String) :
    ∀ (idxs : List Nat) (l : List String),
      (pagesLoop cmdT outT ext fills idxs).1 = .ok l →
      (pagesLoop cmdT outT ext fills idxs).2
        = idxs.map (fun i => PEvent.spawn (fmtD cmdT (fills i))) := by
  intro idxs
  induction idxs with
  | nil =>
    intro l h
    rfl
  | cons index rest ih =>
    intro l h
    cases hf : pyFormat cmdT (fills index).1 (fills index).2 with
    | error e =>
      rw [pagesLoop_cons_fmt_error cmdT outT ext fills index rest e hf] at h
      exact Except.noConfusion h
    | ok command =>
      cases he : entryOf outT ext (fills index) with
      | error e =>
        rw [pagesLoop_cons_entry_error cmdT outT ext fills index rest command e hf he] at h
        exact Except.noConfusion h
      | ok entry =>
        have hcons := pagesLoop_cons_ok cmdT outT ext fills index rest command entry hf he
        rw [hcons] at h
        have h' : (pagesLoop cmdT outT ext fills rest).1.map (fun ls => entry :: ls)
            = Except.ok l := h
        cases hrec : (pagesLoop cmdT outT ext fills rest).1 with
        | error e =>
          rw [hrec] at h'
          exact Except.noConfusion h'
        | ok l' =>
          rw [hcons]
          show PEvent.spawn command :: (pagesLoop cmdT outT ext fills rest).2 = _
          rw [List.map_cons]
          have hio := ih l' hrec
          rw [hio]
          have hcmd : fmtD cmdT (fills index) = command := by
            unfold fmtD
            unfold pyFormat at hf ⊢
            rw [hf]
          rw [hcmd]

/-! ## Claim C1: one output path per page, in page order -/

/-- C1: for a source whose metadata reports n pages (n at least one),
a convert call that returns does so with a list of exactly n output
path strings, and the entry at every index i below n is the recorded
output path of page i+1 (the entry built from the fill of loop index
i), so the list is in ascending page order, whatever the image format
argument is. -/
theorem convert_returns_page_list (t : String) (a : ConvertArgs) (n : Int) (st : String)
    (l : List String)
    (hn : infoPages t = some n) (hpos : 1 ≤ n)
    (hst : _stripextension a.out_path = .ok st)
    (hok : (convert t a).1 = .ok l) :
    l.length = n.toNat
    ∧ ∀ i, i < n.toNat →
        l.get? i = eOpt (entryOf (_getquotepath st) (extOf a.img_format) (pageFill n a i)) := by
  obtain ⟨info, hr, hp⟩ := infoPages_some t n hn
  have he := convert_ok_eq t a info n st hr hp hst
  have hloop : (convLoop a n st).1 = .ok l := by
    rw [he] at hok
    exact hok
  obtain ⟨hlen, hget⟩ := pagesLoop_ok_spec (convCmdT a st) (_getquotepath st)
    (extOf a.img_format) (pageFill n a) (List.range n.toNat) l hloop
  constructor
  · rw [hlen, List.length_range]
  · intro i hi
    exact hget i i (List.get?_range hi)

/-- C1 witness: a two-page source with the default format gives the two
recorded paths in page order. -/
theorem convert_returns_page_list_witness :
    (["o1.tif", "o2.tif"] : List String).length = (2 : Int).toNat :=
  (convert_returns_page_list "Pages: 2" argsA 2 "o\x7bpage\x7d" ["o1.tif", "o2.tif"]
    rfl (by decide) rfl rfl).1

/-! ## Claim C5: single-page labels -/

/-- C5: on a single-page source a convert call with page numbering off
returns exactly one path whose page-label segment is the empty string,
and the same call with page numbering on returns exactly one path whose
page-label segment is the computed formatted label of the first page. -/
theorem convert_single_page (t : String) (a : ConvertArgs) (st : String) (l l' : List String)
    (hpn : a.page_num = false)
    (h1 : infoPages t = some 1)
    (hst : _stripextension a.out_path = .ok st)
    (hok : (convert t a).1 = .ok l)
    (hok' : (convert t (setPageNum a true)).1 = .ok l') :
    l.length = 1
    ∧ l.get? 0 = eOpt (entryOf (_getquotepath st) (extOf a.img_format) ("1", ""))
    ∧ l'.length = 1
    ∧ l'.get? 0 = eOpt (entryOf (_getquotepath st) (extOf a.img_format)
        ("1", pageLabel 0 a.page_num_offset a.page_num_zfill)) := by
  obtain ⟨info, hr, hp⟩ := infoPages_some t 1 h1
  have he := convert_ok_eq t a info 1 st hr hp hst
  have hloop : (convLoop a 1 st).1 = .ok l := by
    rw [he] at hok
    exact hok
  obtain ⟨hlen, hget⟩ := pagesLoop_ok_spec (convCmdT a st) (_getquotepath st)
    (extOf a.img_format) (pageFill 1 a) (List.range (1 : Int).toNat) l hloop
  have hst' : _stripextension (setPageNum a true).out_path = .ok st := hst
  have he' := convert_ok_eq t (setPageNum a true) info 1 st hr hp hst'
  have hloop' : (convLoop (setPageNum a true) 1 st).1 = .ok l' := by
    rw [he'] at hok'
    exact hok'
  obtain ⟨hlen', hget'⟩ := pagesLoop_ok_spec (convCmdT (setPageNum a true) st)
    (_getquotepath st) (extOf (setPageNum a true).img_format)
    (pageFill 1 (setPageNum a true)) (List.range (1 : Int).toNat) l' hloop'
  have hr0 : (List.range (1 : Int).toNat).get? 0 = some 0 := rfl
  have hpf : pageFill 1 a 0 = ("1", "") := by
    unfold pageFill
    rw [if_neg]
    · rfl
    · rw [hpn]
      simp
  have hpf' : pageFill 1 (setPageNum a true) 0
      = ("1", pageLabel 0 a.page_num_offset a.page_num_zfill) := by
    unfold pageFill
    rw [if_pos]
    · rfl
    · right
      rfl
  refine ⟨?_, ?_, ?_, ?_⟩
  · rw [hlen]
    rfl
  · have hx := hget 0 0 hr0
    rw [hpf] at hx
    exact hx
  · rw [hlen']
    rfl
  · have hx := hget' 0 0 hr0
    rw [hpf'] at hx
    exact hx

/-- C5 witness: the single-page run with numbering off records a path
with an empty page-label segment (and the numbered run exists). -/
theorem convert_single_page_witness :
    (["o.tif"] : List String).get? 0
      = eOpt (entryOf (_getquotepath "o\x7bpage\x7d") (extOf "tiff") ("1", "")) :=
  (convert_single_page "Pages: 1" argsA "o\x7bpage\x7d" ["o.tif"] ["o1.tif"]
    rfl rfl rfl rfl rfl).2.1

/-! ## Claim C6: the page-label formula -/

theorem pyZfill_zero (s : String) : pyZfill s 0 = s := by
  unfold pyZfill
  rw [if_pos]
  exact Int.natCast_nonneg _

theorem pageOffset_eq_spec (index : Nat) (off : Option Int) :
    pageOffset index off = labelSpecOffset ((index : Int) + 1) off := by
  cases off with
  | none => rfl
  | some o =>
    show (if ¬o = 0 ∧ -1 ≤ o then ((index : Int) + 1) + o else ((index : Int) + 1))
      = (if -1 ≤ o then ((index : Int) + 1) + o else ((index : Int) + 1))
    by_cases h0 : o = 0
    · subst h0
      simp
    · by_cases h1 : -1 ≤ o
      · rw [if_pos ⟨h0, h1⟩, if_pos h1]
      · rw [if_neg, if_neg h1]
        intro hc
        exact h1 hc.2

theorem pageLabel_eq_spec (index : Nat) (off zf : Option Int) :
    pageLabel index off zf = labelSpec ((index : Int) + 1) off zf := by
  cases zf with
  | none =>
    show toString (pageOffset index off) = toString (labelSpecOffset ((index : Int) + 1) off)
    rw [pageOffset_eq_spec]
  | some z =>
    show (if ¬z = 0 then pyZfill (toString (pageOffset index off)) z
          else toString (pageOffset index off))
      = pyZfill (toString (labelSpecOffset ((index : Int) + 1) off)) z
    rw [pageOffset_eq_spec]
    by_cases hz : z = 0
    · subst hz
      rw [if_neg (by simp), pyZfill_zero]
    · rw [if_pos hz]

/-- C6: the displayed page label of the loop equals the claimed
formula: index plus offset when the offset is present and at least
minus one, the plain index otherwise, then zero-padding when a zfill is
given (offset first, padding second); a three-page run with offset
minus one yields labels 0,1,2 and recorded paths in that order, and a
three-page run with zero-fill three yields 001,002,003. -/
theorem page_label_formula :
    (∀ (index : Nat) (off zf : Option Int),
        pageLabel index off zf = labelSpec ((index : Int) + 1) off zf)
    ∧ (List.range 3).map (fun i => pageLabel i (some (-1)) none) = ["0", "1", "2"]
    ∧ (List.range 3).map (fun i => pageLabel i none (some 3)) = ["001", "002", "003"]
    ∧ (convert "Pages: 3" argsOffset).1 = .ok ["o0.tif", "o1.tif", "o2.tif"]
    ∧ (convert "Pages: 3" argsZfill).1 = .ok ["o001.tif", "o002.tif", "o003.tif"] :=
  ⟨pageLabel_eq_spec, rfl, rfl, rfl, rfl⟩

/-! ## Claim C9: per-page processes are spawned but never waited on -/

/-- C9 counterexample: in the concrete two-page run the trace has three
spawns (the metadata query and two page renders) but only one wait (the
communicate of the metadata query); the scoped acquisition check fails
because the second render is spawned with the first never waited on, so
the claim that every per-page process is drained before the next spawn
is false. -/
theorem convert_never_waits_counterexample :
    seqDrained false (convert "Pages: 2" argsA).2 = false
    ∧ ((convert "Pages: 2" argsA).2.filter isSpawnEv).length = 3
    ∧ ((convert "Pages: 2" argsA).2.filter isWaitEv).length = 1 :=
  ⟨rfl, rfl, rfl⟩

/-- C9 amended: the per-page renders of a successful convert call are
spawned strictly sequentially in ascending page order by the single
loop, but no per-page process is ever waited on: the whole trace is the
metadata spawn and wait followed by exactly one spawn per page and no
other event, so nothing ensures a page process has exited before the
next one is spawned. -/
theorem convert_spawns_sequential_unwaited (t : String) (a : ConvertArgs) (n : Int)
    (st : String) (l : List String)
    (hn : infoPages t = some n)
    (hst : _stripextension a.out_path = .ok st)
    (hok : (convert t a).1 = .ok l) :
    (convert t a).2 = infoEvents t a
      ++ (List.range n.toNat).map
          (fun i => PEvent.spawn (fmtD (convCmdT a st) (pageFill n a i))) := by
  obtain ⟨info, hr, hp⟩ := infoPages_some t n hn
  have he := convert_ok_eq t a info n st hr hp hst
  have hloop : (convLoop a n st).1 = .ok l := by
    rw [he] at hok
    exact hok
  have hev := pagesLoop_events_spec (convCmdT a st) (_getquotepath st)
    (extOf a.img_format) (pageFill n a) (List.range n.toNat) l hloop
  rw [he]
  show infoEvents t a ++ (pagesLoop (convCmdT a st) (_getquotepath st)
    (extOf a.img_format) (pageFill n a) (List.range n.toNat)).2 = _
  rw [hev]

/-- C9 witness: the one-page run yields exactly the metadata spawn, its
wait, and one unwaited render spawn. -/
theorem convert_spawns_sequential_unwaited_witness :
    (convert "Pages: 1" argsA).2
      = [PEvent.spawn "pdfinfo.exe \"s\"", PEvent.waited,
         PEvent.spawn "pdftoppm.exe -r 300 -tiff -tiffcompression none -aa yes -aaVector yes -singlefile -f 1 -l 1 \"s\" \"o\""] := by
  have h := convert_spawns_sequential_unwaited "Pages: 1" argsA 1 "o\x7bpage\x7d" ["o.tif"]
    rfl rfl rfl
  exact h.trans rfl

/-! ## Claim C10: the output prefix must contain the page token -/

theorem stripext_error_of_no_token (p : String)
    (hp : containsSub PAGETOKEN (strippedStem p) = false) :
    _stripextension p = .error (.nameErr "page") := by
  unfold _stripextension
  rw [hp]
  simp

theorem stripext_ok_token (p st : String) (h : _stripextension p = .ok st) :
    containsSub PAGETOKEN (strippedStem p) = true := by
  cases hx : containsSub PAGETOKEN (strippedStem p) with
  | true => rfl
  | false =>
    rw [stripext_error_of_no_token p hx] at h
    exact Except.noConfusion h

theorem pdfinfoResult_ok_pages_int (data : String) (info : List (String × PyVal))
    (h : pdfinfoResult data = .ok info) :
    ∃ n, alget info PAGEKEY = some (PyVal.i n) := by
  have hv := pdfinfoResult_ok_pages data info h
  cases ho : alget (pdfinfoParse data) PAGEKEY with
  | none =>
    rw [pdfinfoResult_eq_none data ho] at h
    exact Except.noConfusion h
  | some v =>
    rw [ho] at hv
    cases hn : pyInt v with
    | none =>
      rw [pdfinfoResult_eq_some data v ho] at h
      by_cases he : v = ""
      · rw [if_pos he] at h
        exact Except.noConfusion h
      · rw [if_neg he, hn] at h
        exact Except.noConfusion h
    | some n =>
      refine ⟨n, ?_⟩
      rw [hv]
      simp [intView, hn]

/-- C10: a prefix whose stem (after stripping an extension that carries
no page token) lacks the page token makes the extension-stripping
helper raise the unbound-name error; convert with such a prefix and a
successful metadata query raises that error with no render spawn in the
trace (only the metadata events happen, so no rendering command is ever
built); and a convert call can only return normally when the stem of
its prefix contains the page token. -/
theorem convert_requires_page_token (p : String)
    (hp : containsSub PAGETOKEN (strippedStem p) = false) :
    _stripextension p = .error (.nameErr "page")
    ∧ (∀ (t : String) (a : ConvertArgs) (info : List (String × PyVal)),
        a.out_path = p → pdfinfoResult t = .ok info →
        (convert t a).1 = .error (.nameErr "page") ∧ (convert t a).2 = infoEvents t a)
    ∧ (∀ (t : String) (a : ConvertArgs) (l : List String),
        (convert t a).1 = .ok l → containsSub PAGETOKEN (strippedStem a.out_path) = true) := by
  refine ⟨stripext_error_of_no_token p hp, ?_, ?_⟩
  · intro t a info hout hr
    obtain ⟨pages, hpv⟩ := pdfinfoResult_ok_pages_int t info hr
    have hse : _stripextension a.out_path = .error (.nameErr "page") := by
      rw [hout]
      exact stripext_error_of_no_token p hp
    have hc : convert t a = (.error (.nameErr "page"), infoEvents t a) := by
      rw [convert_info_ok t a info hr, convertStage2_int t a info pages hpv,
        convertStage3_strip_error t a pages _ hse]
    rw [hc]
    exact ⟨rfl, rfl⟩
  · intro t a l hok
    cases hr : pdfinfoResult t with
    | error e =>
      rw [convert_info_error t a e hr] at hok
      exact Except.noConfusion hok
    | ok info =>
      cases hpv : alget info PAGEKEY with
      | none =>
        rw [convert_info_ok t a info hr, convertStage2_none t a info hpv] at hok
        exact Except.noConfusion hok
      | some pv =>
        cases pv with
        | s s0 =>
          rw [convert_info_ok t a info hr, convertStage2_str t a info s0 hpv] at hok
          exact Except.noConfusion hok
        | i pages =>
          cases hst : _stripextension a.out_path with
          | error e =>
            rw [convert_info_ok t a info hr, convertStage2_int t a info pages hpv,
              convertStage3_strip_error t a pages e hst] at hok
            exact Except.noConfusion hok
          | ok st => exact stripext_ok_token a.out_path st hst

/-- C10 witness: the prefix out has no page token in its stem, so the
stripping helper raises the unbound-name error. -/
theorem convert_requires_page_token_witness :
    _stripextension "out" = .error (.nameErr "page") :=
  (convert_requires_page_token "out" rfl).1

end PyPdf
